import Mathlib

/-!
Verification of the particle / fluid simulation core (src/main.rs).

The Rust code operates on 32-bit floats; the embedding models f32 arithmetic
by real arithmetic, keeping the source's control flow, guards and formulas.
Where real-number division conventions would silently hide an f32 hazard
(division by zero yields 0 in Lean's reals but NaN or an infinity in f32),
the file states the hazard explicitly as a predicate on the divisor reached
by the code path, rather than through the real-valued result.

Source constants and functions keep their Rust names.  Entity ids are
modelled by the index of a particle in the iteration order of the tick,
which is how the code's snapshot vector is built.
-/

noncomputable section

open scoped Classical

/-- 3-component vector, as bevy/glam Vec3 with f32 fields modelled by reals. -/
@[ext]
structure Vec3 where
  x : ℝ
  y : ℝ
  z : ℝ

instance : Zero Vec3 := ⟨⟨0, 0, 0⟩⟩

instance : Add Vec3 := ⟨fun a b => ⟨a.x + b.x, a.y + b.y, a.z + b.z⟩⟩

instance : Sub Vec3 := ⟨fun a b => ⟨a.x - b.x, a.y - b.y, a.z - b.z⟩⟩

instance : Neg Vec3 := ⟨fun a => ⟨-a.x, -a.y, -a.z⟩⟩

instance : Inhabited Vec3 := ⟨0⟩

/-- Scalar multiplication `c * v` of a vector (glam scalar-vector product). -/
def scale (c : ℝ) (v : Vec3) : Vec3 := ⟨c * v.x, c * v.y, c * v.z⟩

/-- Componentwise division of a vector by a scalar (glam `v / c`). -/
def vdiv (v : Vec3) (c : ℝ) : Vec3 := ⟨v.x / c, v.y / c, v.z / c⟩

/-- Dot product (glam `Vec3::dot`). -/
def dot (a b : Vec3) : ℝ := a.x * b.x + a.y * b.y + a.z * b.z

/-- Euclidean norm (glam `Vec3::length`). -/
def vlength (v : Vec3) : ℝ := Real.sqrt (v.x ^ 2 + v.y ^ 2 + v.z ^ 2)

/-- glam `Vec3::normalize`: the vector times the reciprocal of its length.
For the zero vector the divisor is zero: f32 produces NaN components there
(the real-valued model collapses them to 0), which is why zero length is
tracked separately as a hazard predicate where it matters. -/
def vnormalize (v : Vec3) : Vec3 := scale (1 / vlength v) v

/-- glam `Vec3::distance`: length of the difference. -/
def Vec3.distance (a b : Vec3) : ℝ := vlength (a - b)

/-- Rust `f32::signum`: 1 for nonnegative (including +0), -1 for negative. -/
def signum (x : ℝ) : ℝ := if 0 ≤ x then 1 else -1

/-- Constant PARTICLE_SIZE from src/main.rs line 13. -/
def PARTICLE_SIZE : ℝ := 3

/-- Constant COLLISION_DAMPENING from src/main.rs line 16. -/
def COLLISION_DAMPENING : ℝ := 0.5

/-- Constant RESTITUTION from src/main.rs line 17. -/
def RESTITUTION : ℝ := 1

/-- Constant SMOOTHING_RADIUS from src/main.rs line 18. -/
def SMOOTHING_RADIUS : ℝ := 200

/-- Constant MASS from src/main.rs line 19. -/
def MASS : ℝ := 1

/-- Constant TARGET_DENSITY from src/main.rs line 20. -/
def TARGET_DENSITY : ℝ := 2.5

/-- Constant PRESSURE_MULTIPLIER from src/main.rs line 21. -/
def PRESSURE_MULTIPLIER : ℝ := 200

/-- The Particle component: position, velocity and mass.  `transform.translation`
is kept equal to `position` by the integrator, so positions read off transforms
in the source are read off `position` here. -/
structure Particle where
  position : Vec3
  velocity : Vec3
  mass : ℝ

instance : Inhabited Particle := ⟨⟨0, 0, 0⟩⟩

/-- detect_boundaries (src/main.rs lines 111-129) with the damping factor as an
explicit parameter; the source instantiates it at COLLISION_DAMPENING.  The
window half-extents are shrunk by the particle's mass (its radius), the y axis
is checked first, each branch touches only its own axis's position and
velocity components. -/
def detect_boundariesD (damp : ℝ) (winWidth winHeight : ℝ) (p : Particle) : Particle :=
  let window_width := winWidth / 2 - p.mass
  let window_height := winHeight / 2 - p.mass
  let p1 :=
    if |p.position.y| > window_height then
      { p with
        position := { p.position with y := window_height * signum p.position.y }
        velocity := { p.velocity with y := p.velocity.y * (-damp) } }
    else p
  if |p1.position.x| > window_width then
    { p1 with
      position := { p1.position with x := window_width * signum p1.position.x }
      velocity := { p1.velocity with x := p1.velocity.x * (-damp) } }
  else p1

/-- detect_boundaries as the source runs it, at damping COLLISION_DAMPENING. -/
def detect_boundaries (winWidth winHeight : ℝ) (p : Particle) : Particle :=
  detect_boundariesD COLLISION_DAMPENING winWidth winHeight p

/-- elastic_collision (src/main.rs lines 174-196): normal from the snapshotted
positions, early return when the pair is separating, otherwise the impulse
update.  There is no zero-distance branch in the source: for r1 = r2 the
normalize divides by zero (NaN in f32). -/
def elastic_collision (m1 m2 : ℝ) (v1 v2 : Vec3) (r1 r2 : Vec3) : Vec3 × Vec3 :=
  let n := vnormalize (r1 - r2)
  let v_rel := dot (v1 - v2) n
  if v_rel > 0 then (v1, v2)
  else
    let j := -(1 + RESTITUTION) * v_rel / (1 / m1 + 1 / m2)
    (v1 + scale (j / m1) n, v2 - scale (j / m2) n)

/-- The only early-return condition of elastic_collision: the pair counts as
separating.  With f32, a NaN v_rel (zero-distance pair) also fails this test,
exactly as the real-valued model's v_rel = 0 does. -/
def elastic_collision_skips (v1 v2 : Vec3) (r1 r2 : Vec3) : Prop :=
  dot (v1 - v2) (vnormalize (r1 - r2)) > 0

/-- smoothing_kernel (src/main.rs lines 220-223):
max(0, radius - dist)^2 / (pi * radius^4 / 6). -/
def smoothing_kernel (radius dist : ℝ) : ℝ :=
  let volume := Real.pi * radius ^ 4 / 6
  max 0 (radius - dist) ^ 2 / volume

/-- smoothing_kernel_dx (src/main.rs lines 225-233): 0 outside the radius,
otherwise (radius - dist) * 12 / (radius^4 * pi). -/
def smoothing_kernel_dx (radius dist : ℝ) : ℝ :=
  if dist ≥ radius then 0
  else
    let s := 12 / (radius ^ 4 * Real.pi)
    (radius - dist) * s

/-- calculate_density (src/main.rs lines 235-249): accumulate
MASS * smoothing_kernel(SMOOTHING_RADIUS, distance) over every particle of the
query, the sample particle included. -/
def calculate_density (ps : List Particle) (sample_particle : Particle) : ℝ :=
  ps.foldl
    (fun density particle =>
      density +
        MASS * smoothing_kernel SMOOTHING_RADIUS
          (particle.position.distance sample_particle.position))
    0

/-- update_density (src/main.rs lines 251-258): densities[i] is overwritten
with calculate_density of the i-th particle of the iteration order. -/
def update_density (ps : List Particle) : List ℝ :=
  ps.map (fun sample_particle => calculate_density ps sample_particle)

/-- density_to_pressure (src/main.rs lines 287-291). -/
def density_to_pressure (density : ℝ) : ℝ :=
  let density_err := density - TARGET_DENSITY
  density_err * PRESSURE_MULTIPLIER

/-- shared_pressure (src/main.rs lines 293-297): average of the two converted
pressures. -/
def shared_pressure (density other_density : ℝ) : ℝ :=
  let p1 := density_to_pressure density
  let p2 := density_to_pressure other_density
  (p1 + p2) / 2

/-- Loop body of calculate_pressure_force (src/main.rs lines 269-281) for one
entry (position, i) of particle_data: skipped when i is the sample index or
the distance is not positive, otherwise
pressure * dir * slope * MASS / densities[i].  The division by densities[i]
is unconditional on the value of densities[i]. -/
def pressure_term (densities : List ℝ) (sample_pos : Vec3) (sample_index : Nat)
    (entry : Vec3 × Nat) : Vec3 :=
  if entry.2 ≠ sample_index then
    let dist := entry.1.distance sample_pos
    if dist > 0 then
      let dir := vdiv (entry.1 - sample_pos) dist
      let slope := smoothing_kernel_dx SMOOTHING_RADIUS dist
      let density := densities[entry.2]!
      let pressure := shared_pressure density (densities[sample_index]!)
      vdiv (scale (pressure * slope * MASS) dir) density
    else 0
  else 0

/-- The dividend of the pressure_term division (pressure * dir * slope * MASS),
stated separately so the zero-divisor hazard can be exhibited with a nonzero
dividend (in f32 the quotient is then an infinity, not zero). -/
def pressure_term_numerator (densities : List ℝ) (sample_pos : Vec3)
    (sample_index : Nat) (entry : Vec3 × Nat) : Vec3 :=
  let dist := entry.1.distance sample_pos
  let dir := vdiv (entry.1 - sample_pos) dist
  let slope := smoothing_kernel_dx SMOOTHING_RADIUS dist
  let pressure := shared_pressure (densities[entry.2]!) (densities[sample_index]!)
  scale (pressure * slope * MASS) dir

/-- calculate_pressure_force (src/main.rs lines 261-284): sum of the loop body
over particle_data. -/
def calculate_pressure_force (particle_data : List (Vec3 × Nat))
    (sample_particle : Particle) (densities : List ℝ) (sample_index : Nat) : Vec3 :=
  particle_data.foldl
    (fun pressure_force entry =>
      pressure_force + pressure_term densities sample_particle.position sample_index entry)
    0

/-- apply_pressure_force (src/main.rs lines 199-217): particle_data is the
position snapshot with indices; each particle's velocity gains
(pressure_force / densities[i]) * dt.  The division by densities[i] is
unconditional. -/
def apply_pressure_force (ps : List Particle) (densities : List ℝ) (dt : ℝ) :
    List Particle :=
  let particle_data : List (Vec3 × Nat) :=
    ps.enum.map (fun pr => (pr.2.position, pr.1))
  ps.enum.map
    (fun pr =>
      let pressure_force :=
        calculate_pressure_force particle_data pr.2 densities pr.1
      let pressure_acceleration := vdiv pressure_force densities[pr.1]!
      { pr.2 with velocity := pr.2.velocity + scale dt pressure_acceleration })

/-- Index pairs produced by the brute-force double loop of detect_collisions
(src/main.rs lines 143-156): i over all indices, j over the indices above i. -/
def pairIndices (n : Nat) : List (Nat × Nat) :=
  (List.range n).flatMap
    (fun i => ((List.range n).filter (fun j => i < j)).map (fun j => (i, j)))

/-- The narrow-phase test of detect_collisions (src/main.rs lines 148-152):
distance of the snapshotted positions below the sum of the masses. -/
def collides (a b : Particle) : Prop :=
  vlength (a.position - b.position) < a.mass + b.mass

/-- One record pushed onto the collisions vector (src/main.rs line 153):
the two entity ids with the snapshotted positions, velocities and masses. -/
structure CollisionRec where
  e1 : Nat
  e2 : Nat
  pos1 : Vec3
  pos2 : Vec3
  vel1 : Vec3
  vel2 : Vec3
  m1 : ℝ
  m2 : ℝ

/-- Build the collision record for an index pair from the snapshot. -/
def mkRec (ps : List Particle) (p : Nat × Nat) : CollisionRec :=
  ⟨p.1, p.2, (ps[p.1]!).position, (ps[p.2]!).position,
    (ps[p.1]!).velocity, (ps[p.2]!).velocity, (ps[p.1]!).mass, (ps[p.2]!).mass⟩

/-- The entity-id pair of a collision record. -/
def recPair (r : CollisionRec) : Nat × Nat := (r.e1, r.e2)

/-- The collisions vector built by the detection loops of detect_collisions
(src/main.rs lines 141-156): for each ordered index pair i < j whose
snapshotted positions collide, one record with the snapshotted data. -/
def collisionRecs (ps : List Particle) : List CollisionRec :=
  ((pairIndices ps.length).filter
      (fun p => decide (collides (ps[p.1]!) (ps[p.2]!)))).map (mkRec ps)

/-- Overwrite the velocity of the particle at index i, leaving the list
unchanged when the index is out of range (the source's `if let Ok` around
get_mut). -/
def setVel (qs : List Particle) (i : Nat) (v : Vec3) : List Particle :=
  match qs[i]? with
  | some p => qs.set i { p with velocity := v }
  | none => qs

/-- Resolution of one collision record (src/main.rs lines 158-171): the two
velocities are overwritten with the outputs of elastic_collision applied to
the record's snapshotted data. -/
def applyRec (qs : List Particle) (r : CollisionRec) : List Particle :=
  let nv := elastic_collision r.m1 r.m2 r.vel1 r.vel2 r.pos1 r.pos2
  setVel (setVel qs r.e1 nv.1) r.e2 nv.2

/-- detect_collisions (src/main.rs lines 131-172): snapshot, detect, then
resolve each record in order. -/
def detect_collisions (ps : List Particle) : List Particle :=
  (collisionRecs ps).foldl applyRec ps

/-! ### Basic vector and kernel lemmas -/

lemma Vec3.sub_def (a b : Vec3) : a - b = ⟨a.x - b.x, a.y - b.y, a.z - b.z⟩ := rfl

lemma Vec3.add_def (a b : Vec3) : a + b = ⟨a.x + b.x, a.y + b.y, a.z + b.z⟩ := rfl

lemma Vec3.zero_def : (0 : Vec3) = ⟨0, 0, 0⟩ := rfl

lemma vlength_self_sub (p : Vec3) : vlength (p - p) = 0 := by
  simp [vlength, Vec3.sub_def]

lemma Vec3.distance_self (p : Vec3) : Vec3.distance p p = 0 := by
  simp [Vec3.distance, vlength_self_sub]

lemma Vec3.distance_comm (a b : Vec3) : Vec3.distance a b = Vec3.distance b a := by
  unfold Vec3.distance vlength
  rw [Vec3.sub_def, Vec3.sub_def]
  ring_nf

lemma smoothing_kernel_nonneg (radius d : ℝ) (hr : 0 < radius) :
    0 ≤ smoothing_kernel radius d := by
  unfold smoothing_kernel
  have hv : 0 < Real.pi * radius ^ 4 / 6 :=
    div_pos (mul_pos Real.pi_pos (by positivity)) (by norm_num)
  positivity

lemma smoothing_kernel_zero_pos (radius : ℝ) (hr : 0 < radius) :
    0 < smoothing_kernel radius 0 := by
  unfold smoothing_kernel
  have hv : 0 < Real.pi * radius ^ 4 / 6 :=
    div_pos (mul_pos Real.pi_pos (by positivity)) (by norm_num)
  have hm : max 0 (radius - 0) = radius := by
    rw [sub_zero]
    exact max_eq_right hr.le
  rw [hm]
  exact div_pos (by positivity) hv

lemma foldl_add_map {α : Type} (f : α → ℝ) (l : List α) (c : ℝ) :
    l.foldl (fun acc x => acc + f x) c = c + (l.map f).sum := by
  induction l generalizing c with
  | nil => simp
  | cons a t ih => simp [ih, add_assoc]

lemma calculate_density_eq_sum (ps : List Particle) (sample : Particle) :
    calculate_density ps sample =
      (ps.map (fun q =>
        MASS * smoothing_kernel SMOOTHING_RADIUS
          (q.position.distance sample.position))).sum := by
  unfold calculate_density
  rw [foldl_add_map]
  simp

lemma calculate_density_pos (ps : List Particle) (sample : Particle)
    (hmem : sample ∈ ps) : 0 < calculate_density ps sample := by
  rw [calculate_density_eq_sum]
  set f : Particle → ℝ := fun q =>
    MASS * smoothing_kernel SMOOTHING_RADIUS (q.position.distance sample.position) with hf
  have hterm : 0 < f sample := by
    rw [hf]
    simp only [Vec3.distance_self]
    have hk : 0 < smoothing_kernel SMOOTHING_RADIUS 0 :=
      smoothing_kernel_zero_pos SMOOTHING_RADIUS (by norm_num [SMOOTHING_RADIUS])
    unfold MASS
    linarith
  have hnonneg : ∀ x ∈ ps.map f, 0 ≤ x := by
    intro x hx
    rcases List.mem_map.1 hx with ⟨q, _, rfl⟩
    have hk := smoothing_kernel_nonneg SMOOTHING_RADIUS
      (q.position.distance sample.position) (by norm_num [SMOOTHING_RADIUS])
    simp only [hf, MASS, one_mul]
    exact hk
  have hle : f sample ≤ (ps.map f).sum :=
    List.single_le_sum hnonneg _ (List.mem_map_of_mem f hmem)
  linarith

/-! ### C5: boundary reflection is axis-independent -/

lemma detect_boundariesD_components (damp winWidth winHeight : ℝ) (p : Particle) :
    (detect_boundariesD damp winWidth winHeight p).position.y =
      (if |p.position.y| > winHeight / 2 - p.mass then
        (winHeight / 2 - p.mass) * signum p.position.y else p.position.y) ∧
    (detect_boundariesD damp winWidth winHeight p).velocity.y =
      (if |p.position.y| > winHeight / 2 - p.mass then
        p.velocity.y * (-damp) else p.velocity.y) ∧
    (detect_boundariesD damp winWidth winHeight p).position.x =
      (if |p.position.x| > winWidth / 2 - p.mass then
        (winWidth / 2 - p.mass) * signum p.position.x else p.position.x) ∧
    (detect_boundariesD damp winWidth winHeight p).velocity.x =
      (if |p.position.x| > winWidth / 2 - p.mass then
        p.velocity.x * (-damp) else p.velocity.x) ∧
    (detect_boundariesD damp winWidth winHeight p).position.z = p.position.z ∧
    (detect_boundariesD damp winWidth winHeight p).velocity.z = p.velocity.z ∧
    (detect_boundariesD damp winWidth winHeight p).mass = p.mass := by
  unfold detect_boundariesD
  by_cases hy : |p.position.y| > winHeight / 2 - p.mass <;>
    by_cases hx : |p.position.x| > winWidth / 2 - p.mass <;>
      simp [hy, hx]

/-- C5: boundary reflection treats each axis independently: an axis whose
position magnitude exceeds the half-extent gets its position clamped to
half_extent * sign and its velocity component multiplied by -damping, while
the other axis's components are untouched by that axis's branch; when both
axes are out of bounds both reflect in the same call; z is never touched. -/
theorem detect_boundaries_axis_independent (winWidth winHeight : ℝ) (p : Particle) :
    (detect_boundaries winWidth winHeight p).position.y =
      (if |p.position.y| > winHeight / 2 - p.mass then
        (winHeight / 2 - p.mass) * signum p.position.y else p.position.y) ∧
    (detect_boundaries winWidth winHeight p).velocity.y =
      (if |p.position.y| > winHeight / 2 - p.mass then
        -COLLISION_DAMPENING * p.velocity.y else p.velocity.y) ∧
    (detect_boundaries winWidth winHeight p).position.x =
      (if |p.position.x| > winWidth / 2 - p.mass then
        (winWidth / 2 - p.mass) * signum p.position.x else p.position.x) ∧
    (detect_boundaries winWidth winHeight p).velocity.x =
      (if |p.position.x| > winWidth / 2 - p.mass then
        -COLLISION_DAMPENING * p.velocity.x else p.velocity.x) ∧
    (detect_boundaries winWidth winHeight p).position.z = p.position.z ∧
    (detect_boundaries winWidth winHeight p).velocity.z = p.velocity.z ∧
    (detect_boundaries winWidth winHeight p).mass = p.mass := by
  obtain ⟨h1, h2, h3, h4, h5, h6, h7⟩ :=
    detect_boundariesD_components COLLISION_DAMPENING winWidth winHeight p
  unfold detect_boundaries
  refine ⟨h1, ?_, h3, ?_, h5, h6, h7⟩
  · rw [h2]
    split <;> ring
  · rw [h4]
    split <;> ring

/-! ### C9: reflection scenario at damping 1 -/

/-- C9: a particle at y = half_height + 5 with velocity (0,-1), reflected with
damping 1, gets position.y clamped to the half-height and velocity.y set to +1.
The code's constant damping is 0.5; the claim stipulates damping = 1, which is
the detect_boundariesD parameter the code instantiates at COLLISION_DAMPENING. -/
theorem boundary_reflection_scenario (winWidth winHeight m : ℝ)
    (hh : 0 ≤ winHeight / 2 - m) :
    (detect_boundariesD 1 winWidth winHeight
        ⟨⟨0, winHeight / 2 - m + 5, 0⟩, ⟨0, -1, 0⟩, m⟩).position.y =
      winHeight / 2 - m ∧
    (detect_boundariesD 1 winWidth winHeight
        ⟨⟨0, winHeight / 2 - m + 5, 0⟩, ⟨0, -1, 0⟩, m⟩).velocity.y = 1 := by
  have hcond : |(winHeight / 2 - m + 5 : ℝ)| > winHeight / 2 - m := by
    rw [abs_of_nonneg (by linarith)]
    linarith
  have hsig : signum (winHeight / 2 - m + 5) = 1 := by
    unfold signum
    rw [if_pos (by linarith)]
  obtain ⟨hpy, hvy, -, -, -, -, -⟩ :=
    detect_boundariesD_components 1 winWidth winHeight
      ⟨⟨0, winHeight / 2 - m + 5, 0⟩, ⟨0, -1, 0⟩, m⟩
  dsimp only at hpy hvy
  rw [if_pos hcond, hsig, mul_one] at hpy
  rw [if_pos hcond] at hvy
  refine ⟨hpy, ?_⟩
  rw [hvy]
  norm_num

/-- C9 witness at a concrete window and mass. -/
theorem boundary_reflection_scenario_witness :
    (0 : ℝ) ≤ 600 / 2 - 3 ∧
      ((detect_boundariesD 1 800 600
          ⟨⟨0, 600 / 2 - 3 + 5, 0⟩, ⟨0, -1, 0⟩, 3⟩).position.y = 600 / 2 - 3 ∧
        (detect_boundariesD 1 800 600
            ⟨⟨0, 600 / 2 - 3 + 5, 0⟩, ⟨0, -1, 0⟩, 3⟩).velocity.y = 1) :=
  ⟨by norm_num, boundary_reflection_scenario 800 600 3 (by norm_num)⟩

/-! ### C7: momentum conservation of elastic_collision -/

/-- C7: with the code's restitution of 1 and positive masses, the resolved
velocities of elastic_collision conserve momentum exactly: m1 * v1f + m2 * v2f
equals m1 * v1 + m2 * v2 in both the impulse branch and the separating skip
branch; the positions are required distinct so that the contact normal is
well defined. -/
theorem elastic_collision_momentum_conserved (m1 m2 : ℝ) (v1 v2 r1 r2 : Vec3)
    (hm1 : 0 < m1) (hm2 : 0 < m2) (hr : r1 ≠ r2) :
    scale m1 (elastic_collision m1 m2 v1 v2 r1 r2).1 +
        scale m2 (elastic_collision m1 m2 v1 v2 r1 r2).2 =
      scale m1 v1 + scale m2 v2 := by
  unfold elastic_collision
  by_cases hsep : dot (v1 - v2) (vnormalize (r1 - r2)) > 0
  · rw [if_pos hsep]
  · rw [if_neg hsep]
    have h1 : m1 ≠ 0 := ne_of_gt hm1
    have h2 : m2 ≠ 0 := ne_of_gt hm2
    simp only [scale, Vec3.add_def, Vec3.sub_def]
    ext <;> field_simp <;> ring

/-- C7 witness: equal masses, particles one unit apart, head-on approach. -/
theorem elastic_collision_momentum_conserved_witness :
    (0 : ℝ) < 1 ∧ (⟨1, 0, 0⟩ : Vec3) ≠ ⟨0, 0, 0⟩ ∧
      scale 1 (elastic_collision 1 1 ⟨-1, 0, 0⟩ 0 ⟨1, 0, 0⟩ ⟨0, 0, 0⟩).1 +
          scale 1 (elastic_collision 1 1 ⟨-1, 0, 0⟩ 0 ⟨1, 0, 0⟩ ⟨0, 0, 0⟩).2 =
        scale 1 ⟨-1, 0, 0⟩ + scale 1 (0 : Vec3) :=
  ⟨by norm_num, by simp [Vec3.ext_iff],
    elastic_collision_momentum_conserved 1 1 ⟨-1, 0, 0⟩ 0 ⟨1, 0, 0⟩ ⟨0, 0, 0⟩
      (by norm_num) (by norm_num) (by simp [Vec3.ext_iff])⟩

/-! ### Indexing helpers -/

lemma map_getElem_bang {α β : Type} [Inhabited α] [Inhabited β] (f : α → β)
    (l : List α) (i : Nat) (h : i < l.length) : (l.map f)[i]! = f (l[i]!) := by
  rw [getElem!_pos (l.map f) i (by simpa using h), getElem!_pos l i h]
  simp

lemma getElem_bang_mem {α : Type} [Inhabited α] (l : List α) (i : Nat)
    (h : i < l.length) : l[i]! ∈ l := by
  rw [getElem!_pos l i h]
  exact l.getElem_mem h

/-! ### C4: density is strictly positive -/

/-- C4: the smoothing kernel's zero-distance peak is strictly positive for a
positive radius, the kernel at the code's radius is nonnegative everywhere,
the code's MASS and SMOOTHING_RADIUS constants are positive, and the density
computed by calculate_density over any population containing the sample
particle (the source iterates the full query, sample included) is strictly
positive. -/
theorem calculate_density_strictly_positive :
    (∀ radius : ℝ, 0 < radius → 0 < smoothing_kernel radius 0) ∧
    (∀ d : ℝ, 0 ≤ smoothing_kernel SMOOTHING_RADIUS d) ∧
    0 < MASS ∧ 0 < SMOOTHING_RADIUS ∧
    (∀ (ps : List Particle) (sample : Particle), sample ∈ ps →
      0 < calculate_density ps sample) :=
  ⟨fun r hr => smoothing_kernel_zero_pos r hr,
    fun d => smoothing_kernel_nonneg SMOOTHING_RADIUS d (by norm_num [SMOOTHING_RADIUS]),
    by norm_num [MASS], by norm_num [SMOOTHING_RADIUS],
    fun ps sample h => calculate_density_pos ps sample h⟩

/-- C4 witness: a concrete one-particle population. -/
theorem calculate_density_strictly_positive_witness :
    (0 : ℝ) < 200 ∧ 0 < smoothing_kernel 200 0 ∧
      ((⟨0, 0, 1⟩ : Particle) ∈ [(⟨0, 0, 1⟩ : Particle)]) ∧
      0 < calculate_density [(⟨0, 0, 1⟩ : Particle)] ⟨0, 0, 1⟩ :=
  ⟨by norm_num, calculate_density_strictly_positive.1 200 (by norm_num),
    List.mem_singleton.2 rfl,
    calculate_density_strictly_positive.2.2.2.2 _ _ (List.mem_singleton.2 rfl)⟩

/-! ### C6: the density formula -/

/-- C6: the density buffer entry written for particle i equals the sum over
all particles (i itself included) of MASS times the kernel of the distance;
the kernel is max(0, h - d)^2 divided by pi * h^4 / 6; and the kernel is zero
at any distance at least the radius. -/
theorem update_density_formula :
    (∀ (ps : List Particle) (i : Nat), i < ps.length →
      (update_density ps)[i]! =
        (ps.map (fun q =>
          MASS * smoothing_kernel SMOOTHING_RADIUS
            (q.position.distance ((ps[i]!).position)))).sum) ∧
    (∀ radius d : ℝ,
      smoothing_kernel radius d = max 0 (radius - d) ^ 2 / (Real.pi * radius ^ 4 / 6)) ∧
    (∀ radius d : ℝ, 0 < radius → radius ≤ d → smoothing_kernel radius d = 0) := by
  refine ⟨?_, ?_, ?_⟩
  · intro ps i hi
    unfold update_density
    rw [map_getElem_bang _ _ _ hi]
    exact calculate_density_eq_sum ps (ps[i]!)
  · intro radius d
    rfl
  · intro radius d _ hd
    unfold smoothing_kernel
    rw [max_eq_left (by linarith)]
    simp

/-- C6 witness: instantiated at a one-particle population and at a distance
beyond the support. -/
theorem update_density_formula_witness :
    ((0 : Nat) < ([(⟨0, 0, 1⟩ : Particle)]).length ∧
      (update_density [(⟨0, 0, 1⟩ : Particle)])[0]! =
        (([(⟨0, 0, 1⟩ : Particle)]).map (fun q =>
          MASS * smoothing_kernel SMOOTHING_RADIUS
            (q.position.distance ((([(⟨0, 0, 1⟩ : Particle)])[0]!).position)))).sum) ∧
    ((0 : ℝ) < 200 ∧ (200 : ℝ) ≤ 300 ∧ smoothing_kernel 200 300 = 0) :=
  ⟨⟨by simp, update_density_formula.1 [⟨0, 0, 1⟩] 0 (by simp)⟩,
    ⟨by norm_num, by norm_num,
      update_density_formula.2.2 200 300 (by norm_num) (by norm_num)⟩⟩

/-! ### C3: density divisors in the pressure stage -/

/-- C3 (amended): the pressure stage has no zero-density guard — its divisions
by densities[j] inside pressure_term and by densities[i] in the final
acceleration are unconditional (see pressure_term_zero_density_divided); in
the pipeline, however, every entry of the buffer written by update_density is
strictly positive, so every density divisor the stage uses is nonzero. -/
theorem pressure_divisors_positive_in_pipeline (ps : List Particle) (i : Nat)
    (hi : i < ps.length) : 0 < (update_density ps)[i]! := by
  unfold update_density
  rw [map_getElem_bang _ _ _ hi]
  exact calculate_density_pos ps (ps[i]!) (getElem_bang_mem ps i hi)

/-- C3 witness: the density buffer of a one-particle population. -/
theorem pressure_divisors_positive_witness :
    (0 : Nat) < ([(⟨0, 0, 1⟩ : Particle)]).length ∧
      (0 : ℝ) < (update_density [(⟨0, 0, 1⟩ : Particle)])[0]! :=
  ⟨by simp, pressure_divisors_positive_in_pipeline [⟨0, 0, 1⟩] 0 (by simp)⟩

/-! ### Componentwise simp lemmas and evaluation helpers -/

@[simp] lemma Vec3.zero_x : (0 : Vec3).x = 0 := rfl

@[simp] lemma Vec3.zero_y : (0 : Vec3).y = 0 := rfl

@[simp] lemma Vec3.zero_z : (0 : Vec3).z = 0 := rfl

@[simp] lemma Vec3.add_x (a b : Vec3) : (a + b).x = a.x + b.x := rfl

@[simp] lemma Vec3.add_y (a b : Vec3) : (a + b).y = a.y + b.y := rfl

@[simp] lemma Vec3.add_z (a b : Vec3) : (a + b).z = a.z + b.z := rfl

@[simp] lemma Vec3.sub_x (a b : Vec3) : (a - b).x = a.x - b.x := rfl

@[simp] lemma Vec3.sub_y (a b : Vec3) : (a - b).y = a.y - b.y := rfl

@[simp] lemma Vec3.sub_z (a b : Vec3) : (a - b).z = a.z - b.z := rfl

@[simp] lemma Vec3.neg_x (a : Vec3) : (-a).x = -a.x := rfl

@[simp] lemma Vec3.neg_y (a : Vec3) : (-a).y = -a.y := rfl

@[simp] lemma Vec3.neg_z (a : Vec3) : (-a).z = -a.z := rfl

@[simp] lemma scale_x (c : ℝ) (v : Vec3) : (scale c v).x = c * v.x := rfl

@[simp] lemma scale_y (c : ℝ) (v : Vec3) : (scale c v).y = c * v.y := rfl

@[simp] lemma scale_z (c : ℝ) (v : Vec3) : (scale c v).z = c * v.z := rfl

@[simp] lemma vdiv_x (v : Vec3) (c : ℝ) : (vdiv v c).x = v.x / c := rfl

@[simp] lemma vdiv_y (v : Vec3) (c : ℝ) : (vdiv v c).y = v.y / c := rfl

@[simp] lemma vdiv_z (v : Vec3) (c : ℝ) : (vdiv v c).z = v.z / c := rfl

lemma getElem_bang_cons_zero {α : Type} [Inhabited α] (a : α) (l : List α) :
    (a :: l)[0]! = a := by
  rw [getElem!_pos (a :: l) 0 (by simp)]
  simp

lemma getElem_bang_cons_one {α : Type} [Inhabited α] (a b : α) (l : List α) :
    (a :: b :: l)[1]! = b := by
  rw [getElem!_pos (a :: b :: l) 1 (by simp)]
  simp

lemma vlength_pos (v : Vec3) (h : v ≠ 0) : 0 < vlength v := by
  have hsum : 0 ≤ v.x ^ 2 + v.y ^ 2 + v.z ^ 2 := by positivity
  rcases hsum.lt_or_eq with hlt | heq
  · exact Real.sqrt_pos.2 hlt
  · exfalso
    apply h
    have hx : v.x = 0 := by nlinarith [sq_nonneg v.x, sq_nonneg v.y, sq_nonneg v.z]
    have hy : v.y = 0 := by nlinarith [sq_nonneg v.x, sq_nonneg v.y, sq_nonneg v.z]
    have hz : v.z = 0 := by nlinarith [sq_nonneg v.x, sq_nonneg v.y, sq_nonneg v.z]
    ext <;> simpa

lemma Vec3.sub_ne_zero (a b : Vec3) (h : a ≠ b) : a - b ≠ 0 := by
  intro hab
  apply h
  have := Vec3.ext_iff.1 hab
  simp only [Vec3.sub_x, Vec3.sub_y, Vec3.sub_z, Vec3.zero_x, Vec3.zero_y,
    Vec3.zero_z] at this
  ext <;> linarith [this.1, this.2.1, this.2.2]

lemma Vec3.distance_pos (a b : Vec3) (h : a ≠ b) : 0 < Vec3.distance a b :=
  vlength_pos _ (Vec3.sub_ne_zero a b h)

lemma smoothing_kernel_dx_pos (radius d : ℝ) (h1 : 0 < radius) (h2 : d < radius) :
    0 < smoothing_kernel_dx radius d := by
  unfold smoothing_kernel_dx
  rw [if_neg (by linarith)]
  have hs : 0 < 12 / (radius ^ 4 * Real.pi) := by positivity
  exact mul_pos (by linarith) hs

lemma shared_pressure_comm (a b : ℝ) : shared_pressure a b = shared_pressure b a := by
  unfold shared_pressure
  ring

lemma distance_unit_right : Vec3.distance ⟨1, 0, 0⟩ ⟨0, 0, 0⟩ = 1 := by
  unfold Vec3.distance vlength
  simp only [Vec3.sub_x, Vec3.sub_y, Vec3.sub_z]
  norm_num

lemma distance_unit_left : Vec3.distance ⟨0, 0, 0⟩ ⟨1, 0, 0⟩ = 1 := by
  unfold Vec3.distance vlength
  simp only [Vec3.sub_x, Vec3.sub_y, Vec3.sub_z]
  norm_num

/-! ### C8: pairwise pressure symmetry -/

/-- C8 counterexample: with densities [1, 2] and the two particles one unit
apart on the x axis, the pressure term accumulated into particle 0 from
particle 1 is not the negative of the term accumulated into particle 1 from
particle 0: the code divides each term by the contributing particle's density
(densities[j] on one side, densities[i] on the other), so the raw terms
differ by that factor whenever the two densities differ. -/
theorem pressure_term_not_antisymmetric :
    pressure_term [1, 2] ⟨0, 0, 0⟩ 0 (⟨1, 0, 0⟩, 1) ≠
      - pressure_term [1, 2] ⟨1, 0, 0⟩ 1 (⟨0, 0, 0⟩, 0) := by
  have hs : 0 < smoothing_kernel_dx SMOOTHING_RADIUS 1 :=
    smoothing_kernel_dx_pos SMOOTHING_RADIUS 1 (by norm_num [SMOOTHING_RADIUS])
      (by norm_num [SMOOTHING_RADIUS])
  have hA : (pressure_term [1, 2] ⟨0, 0, 0⟩ 0 (⟨1, 0, 0⟩, 1)).x =
      shared_pressure 2 1 * smoothing_kernel_dx SMOOTHING_RADIUS 1 * MASS / 2 := by
    unfold pressure_term
    rw [if_pos (by norm_num : ((⟨1, 0, 0⟩ : Vec3), (1 : Nat)).2 ≠ 0)]
    simp only [distance_unit_right, getElem_bang_cons_zero, getElem_bang_cons_one]
    rw [if_pos (by norm_num : (1 : ℝ) > 0)]
    simp
  have hB : (pressure_term [1, 2] ⟨1, 0, 0⟩ 1 (⟨0, 0, 0⟩, 0)).x =
      -(shared_pressure 1 2 * smoothing_kernel_dx SMOOTHING_RADIUS 1 * MASS) := by
    unfold pressure_term
    rw [if_pos (by norm_num : ((⟨0, 0, 0⟩ : Vec3), (0 : Nat)).2 ≠ 1)]
    simp only [distance_unit_left, getElem_bang_cons_zero, getElem_bang_cons_one]
    rw [if_pos (by norm_num : (1 : ℝ) > 0)]
    simp
  intro hcontra
  have hx := congrArg Vec3.x hcontra
  rw [hA, Vec3.neg_x, hB] at hx
  have hsp : shared_pressure 2 1 = -200 := by
    unfold shared_pressure density_to_pressure TARGET_DENSITY PRESSURE_MULTIPLIER
    norm_num
  have hsp2 : shared_pressure 1 2 = -200 := by
    unfold shared_pressure density_to_pressure TARGET_DENSITY PRESSURE_MULTIPLIER
    norm_num
  rw [hsp, hsp2] at hx
  unfold MASS at hx
  nlinarith [hx, hs]

/-- C8 (amended): the raw accumulated terms are not negatives of each other in
general (pressure_term_not_antisymmetric); what holds is antisymmetry of the
acceleration contributions: dividing each particle's term by that particle's
own density — exactly what apply_pressure_force's final division does — gives
exact negatives, because the shared pressure and the distance are symmetric
in the pair and the directions are opposite. -/
theorem pressure_acceleration_antisymmetric (densities : List ℝ)
    (pa pb : Vec3) (i j : Nat) (hij : j ≠ i) (hab : pa ≠ pb)
    (hdi : densities[i]! ≠ 0) (hdj : densities[j]! ≠ 0) :
    vdiv (pressure_term densities pa i (pb, j)) (densities[i]!) =
      - vdiv (pressure_term densities pb j (pa, i)) (densities[j]!) := by
  have hd1 : 0 < Vec3.distance pb pa := Vec3.distance_pos pb pa (fun h => hab h.symm)
  have hd2 : Vec3.distance pa pb = Vec3.distance pb pa := Vec3.distance_comm pa pb
  have hdne : Vec3.distance pb pa ≠ 0 := ne_of_gt hd1
  unfold pressure_term
  rw [if_pos (show ((pb, j)).2 ≠ i from hij),
    if_pos (show ((pa, i)).2 ≠ j from fun h => hij h.symm)]
  simp only
  rw [hd2, if_pos hd1, if_pos hd1,
    shared_pressure_comm (densities[j]!) (densities[i]!)]
  ext <;> simp only [vdiv_x, vdiv_y, vdiv_z, scale_x, scale_y, scale_z,
    Vec3.neg_x, Vec3.neg_y, Vec3.neg_z, Vec3.sub_x, Vec3.sub_y, Vec3.sub_z] <;>
    field_simp <;> ring

/-- C8 witness: the amended antisymmetry at the counterexample's inputs. -/
theorem pressure_acceleration_antisymmetric_witness :
    ((1 : Nat) ≠ 0) ∧ ((⟨0, 0, 0⟩ : Vec3) ≠ ⟨1, 0, 0⟩) ∧
      (([1, 2] : List ℝ)[0]! ≠ 0) ∧ (([1, 2] : List ℝ)[1]! ≠ 0) ∧
      vdiv (pressure_term [1, 2] ⟨0, 0, 0⟩ 0 (⟨1, 0, 0⟩, 1)) (([1, 2] : List ℝ)[0]!) =
        - vdiv (pressure_term [1, 2] ⟨1, 0, 0⟩ 1 (⟨0, 0, 0⟩, 0)) (([1, 2] : List ℝ)[1]!) :=
  ⟨by norm_num, by simp [Vec3.ext_iff],
    by rw [getElem_bang_cons_zero]; norm_num,
    by rw [getElem_bang_cons_one]; norm_num,
    pressure_acceleration_antisymmetric [1, 2] ⟨0, 0, 0⟩ ⟨1, 0, 0⟩ 0 1
      (by norm_num) (by simp [Vec3.ext_iff])
      (by rw [getElem_bang_cons_zero]; norm_num)
      (by rw [getElem_bang_cons_one]; norm_num)⟩

/-- C3 counterexample: the two guards the source actually has (index differs
from the sample, distance positive) both pass for the entry at index 1 one
unit from the sample, yet the divisor densities[1] is exactly 0 while the
dividend's x component is nonzero: the code performs the division instead of
skipping the term (in f32 the quotient is an infinity, not "no
contribution"). -/
theorem pressure_term_zero_density_divided :
    (1 : Nat) ≠ 0 ∧
    (0 : ℝ) < Vec3.distance ⟨1, 0, 0⟩ ⟨0, 0, 0⟩ ∧
    ([1, 0] : List ℝ)[1]! = 0 ∧
    (pressure_term_numerator [1, 0] ⟨0, 0, 0⟩ 0 (⟨1, 0, 0⟩, 1)).x ≠ 0 := by
  refine ⟨by norm_num, by rw [distance_unit_right]; norm_num,
    by rw [getElem_bang_cons_one], ?_⟩
  have hs : 0 < smoothing_kernel_dx SMOOTHING_RADIUS 1 :=
    smoothing_kernel_dx_pos SMOOTHING_RADIUS 1 (by norm_num [SMOOTHING_RADIUS])
      (by norm_num [SMOOTHING_RADIUS])
  have hnum : (pressure_term_numerator [1, 0] ⟨0, 0, 0⟩ 0 (⟨1, 0, 0⟩, 1)).x =
      shared_pressure 0 1 * smoothing_kernel_dx SMOOTHING_RADIUS 1 * MASS := by
    unfold pressure_term_numerator
    simp only [distance_unit_right, getElem_bang_cons_zero, getElem_bang_cons_one]
    simp
  rw [hnum]
  have hsp : shared_pressure 0 1 = -400 := by
    unfold shared_pressure density_to_pressure TARGET_DENSITY PRESSURE_MULTIPLIER
    norm_num
  rw [hsp]
  unfold MASS
  nlinarith

/-! ### C1: zero-distance pair is not skipped -/

/-- C1: the resolver does not skip a zero-distance pair.  With two particles
both at the origin (masses 1, snapshot velocities (1,0,0) and (0,0,0)) the
detection loop emits exactly the pair (0, 1) — distance 0 is below the mass
sum — the contact normal's divisor |pos1 - pos2| is exactly 0, and the only
skip test of elastic_collision (v_rel > 0) fails, so the impulse lines
execute with a normal obtained by dividing by zero and their results are
written back: in f32 this writes NaN velocity components to both particles,
contradicting the claim that resolution is skipped for that pair. -/
theorem detect_collisions_zero_distance_unguarded :
    collisionRecs [⟨⟨0, 0, 0⟩, ⟨1, 0, 0⟩, 1⟩, ⟨⟨0, 0, 0⟩, ⟨0, 0, 0⟩, 1⟩] =
      [⟨0, 1, ⟨0, 0, 0⟩, ⟨0, 0, 0⟩, ⟨1, 0, 0⟩, ⟨0, 0, 0⟩, 1, 1⟩] ∧
    vlength ((⟨0, 0, 0⟩ : Vec3) - ⟨0, 0, 0⟩) = 0 ∧
    ¬ elastic_collision_skips ⟨1, 0, 0⟩ ⟨0, 0, 0⟩ ⟨0, 0, 0⟩ ⟨0, 0, 0⟩ := by
  refine ⟨?_, vlength_self_sub _, ?_⟩
  · have hcol : collides
        (([⟨⟨0, 0, 0⟩, ⟨1, 0, 0⟩, 1⟩, ⟨⟨0, 0, 0⟩, ⟨0, 0, 0⟩, 1⟩] :
          List Particle)[(0 : Nat)]!)
        (([⟨⟨0, 0, 0⟩, ⟨1, 0, 0⟩, 1⟩, ⟨⟨0, 0, 0⟩, ⟨0, 0, 0⟩, 1⟩] :
          List Particle)[(1 : Nat)]!) := by
      rw [getElem_bang_cons_zero, getElem_bang_cons_one]
      unfold collides
      rw [vlength_self_sub]
      norm_num
    unfold collisionRecs
    have hpair : pairIndices
        ([(⟨⟨0, 0, 0⟩, ⟨1, 0, 0⟩, 1⟩ : Particle), ⟨⟨0, 0, 0⟩, ⟨0, 0, 0⟩, 1⟩]).length =
        [(0, 1)] := rfl
    rw [hpair]
    rw [List.filter_cons_of_pos (by exact decide_eq_true hcol), List.filter_nil]
    rfl
  · unfold elastic_collision_skips vnormalize dot
    simp

/-! ### C2: each unordered pair is resolved at most once -/

lemma mem_pairIndices (n : Nat) (p : Nat × Nat) (h : p ∈ pairIndices n) :
    p.1 < p.2 ∧ p.2 < n := by
  unfold pairIndices at h
  rcases List.mem_flatMap.1 h with ⟨i, _, hp⟩
  rcases List.mem_map.1 hp with ⟨j, hj, rfl⟩
  rcases List.mem_filter.1 hj with ⟨hjr, hij⟩
  exact ⟨by simpa using hij, List.mem_range.1 hjr⟩

lemma pairIndices_nodup (n : Nat) : (pairIndices n).Nodup := by
  unfold pairIndices
  refine List.nodup_flatMap.2 ⟨?_, ?_⟩
  · intro i _
    exact ((List.nodup_range n).filter _).map (fun j k h => congrArg Prod.snd h)
  · refine List.Pairwise.imp ?_ (List.pairwise_lt_range n)
    intro i1 i2 hlt p hp1 hp2
    rcases List.mem_map.1 hp1 with ⟨j1, _, rfl⟩
    rcases List.mem_map.1 hp2 with ⟨j2, _, hj2⟩
    have : i2 = i1 := congrArg Prod.fst hj2
    omega

lemma countP_beq_le_one {α : Type} [BEq α] [LawfulBEq α] (l : List α)
    (hnd : l.Nodup) (v : α) : l.countP (fun q => q == v) ≤ 1 := by
  induction l with
  | nil => simp
  | cons a t ih =>
    rw [List.countP_cons]
    rcases List.nodup_cons.1 hnd with ⟨hna, hnt⟩
    by_cases hav : (a == v) = true
    · have hv : a = v := eq_of_beq hav
      subst hv
      have hz : t.countP (fun q => q == a) = 0 := by
        rw [List.countP_eq_zero]
        intro b hb hbeq
        exact hna (by rwa [eq_of_beq hbeq] at hb)
      simp [hz, hav]
    · have := ih hnt
      rw [if_neg hav]
      omega

lemma countP_le_one_of_unordered (l : List (Nat × Nat)) (hnd : l.Nodup)
    (hord : ∀ p ∈ l, p.1 < p.2) (f : Nat × Nat → Bool) (a b : Nat)
    (hf : ∀ q, f q = true → q = (a, b) ∨ q = (b, a)) : l.countP f ≤ 1 := by
  rcases Nat.lt_trichotomy a b with hab | hab | hab
  · have hstep : l.countP f ≤ l.countP (fun q => q == (a, b)) := by
      refine List.countP_mono_left ?_
      intro q hq hfq
      rcases hf q hfq with rfl | rfl
      · exact beq_self_eq_true _
      · exact absurd (hord _ hq) (by omega)
    exact hstep.trans (countP_beq_le_one l hnd (a, b))
  · rw [List.countP_eq_zero.2]
    · omega
    · intro q hq hfq
      rcases hf q hfq with rfl | rfl <;>
        exact absurd (hord _ hq) (by omega)
  · have hstep : l.countP f ≤ l.countP (fun q => q == (b, a)) := by
      refine List.countP_mono_left ?_
      intro q hq hfq
      rcases hf q hfq with rfl | rfl
      · exact absurd (hord _ hq) (by omega)
      · exact beq_self_eq_true _
    exact hstep.trans (countP_beq_le_one l hnd (b, a))

/-- C2: the brute-force detection loop of detect_collisions emits each
unordered pair of particle indices at most once — it pushes only records with
e1 < e2, one per index pair — and the resolution loop mutates velocities once
per record, so each unordered pair is resolved 0 or 1 times per tick, never
more. -/
theorem collision_pair_resolved_at_most_once (ps : List Particle) (a b : Nat) :
    ((collisionRecs ps).countP
      (fun r => (r.e1 == a && r.e2 == b) || (r.e1 == b && r.e2 == a))) ≤ 1 := by
  unfold collisionRecs
  rw [List.countP_map]
  refine countP_le_one_of_unordered _
    ((pairIndices_nodup ps.length).filter _) ?_ _ a b ?_
  · intro p hp
    exact (mem_pairIndices _ _ (List.mem_filter.1 hp).1).1
  · intro q hq
    simp only [Function.comp, mkRec, Bool.or_eq_true, Bool.and_eq_true,
      beq_iff_eq] at hq
    rcases hq with ⟨h1, h2⟩ | ⟨h1, h2⟩
    · left
      exact Prod.ext h1 h2
    · right
      exact Prod.ext h1 h2

/-! ### C10: snapshot semantics and last-write-wins -/

/-- Whether a collision record involves the particle at index k. -/
def touches (k : Nat) (r : CollisionRec) : Bool := r.e1 == k || r.e2 == k

/-- The velocity that resolving record r writes to the particle at index k:
the first output of elastic_collision when k is the record's first entity,
else the second output.  All inputs are the record's snapshotted data. -/
def outVel (k : Nat) (r : CollisionRec) : Vec3 :=
  if r.e1 = k then (elastic_collision r.m1 r.m2 r.vel1 r.vel2 r.pos1 r.pos2).1
  else (elastic_collision r.m1 r.m2 r.vel1 r.vel2 r.pos1 r.pos2).2

lemma setVel_length (qs : List Particle) (i : Nat) (v : Vec3) :
    (setVel qs i v).length = qs.length := by
  unfold setVel
  cases h : qs[i]? <;> simp

lemma applyRec_length (qs : List Particle) (r : CollisionRec) :
    (applyRec qs r).length = qs.length := by
  unfold applyRec
  rw [setVel_length, setVel_length]

lemma setVel_getElem_ne (qs : List Particle) (i : Nat) (v : Vec3) (k : Nat)
    (hne : i ≠ k) : (setVel qs i v)[k]? = qs[k]? := by
  unfold setVel
  cases h : qs[i]? with
  | none => rfl
  | some p => exact List.getElem?_set_ne hne

lemma setVel_getElem_self (qs : List Particle) (i : Nat) (v : Vec3)
    (hi : i < qs.length) :
    (setVel qs i v)[i]? = some { qs[i]! with velocity := v } := by
  unfold setVel
  rw [List.getElem?_eq_getElem hi, getElem!_pos qs i hi]
  exact List.getElem?_set_self hi

lemma applyRec_getElem_untouched (qs : List Particle) (r : CollisionRec) (k : Nat)
    (h1 : r.e1 ≠ k) (h2 : r.e2 ≠ k) : (applyRec qs r)[k]? = qs[k]? := by
  unfold applyRec
  rw [setVel_getElem_ne _ _ _ _ h2, setVel_getElem_ne _ _ _ _ h1]

lemma foldl_applyRec_untouched (recs : List CollisionRec) (qs : List Particle)
    (k : Nat) (h : ∀ r ∈ recs, r.e1 ≠ k ∧ r.e2 ≠ k) :
    (recs.foldl applyRec qs)[k]? = qs[k]? := by
  induction recs generalizing qs with
  | nil => rfl
  | cons c t ih =>
    rw [List.foldl_cons, ih _ (fun r hr => h r (List.mem_cons_of_mem c hr))]
    exact applyRec_getElem_untouched qs c k (h c (List.mem_cons_self c t)).1
      (h c (List.mem_cons_self c t)).2

lemma applyRec_getElem_e1 (qs : List Particle) (r : CollisionRec)
    (h1 : r.e1 < qs.length) (hne : r.e1 ≠ r.e2) :
    (applyRec qs r)[r.e1]? = some { qs[r.e1]! with velocity :=
      (elastic_collision r.m1 r.m2 r.vel1 r.vel2 r.pos1 r.pos2).1 } := by
  unfold applyRec
  rw [setVel_getElem_ne _ _ _ _ (fun h => hne h.symm)]
  exact setVel_getElem_self qs r.e1 _ h1

lemma setVel_getElem_bang_ne (qs : List Particle) (i : Nat) (v : Vec3) (k : Nat)
    (hne : i ≠ k) (hk : k < qs.length) : (setVel qs i v)[k]! = qs[k]! := by
  have hk' : k < (setVel qs i v).length := by
    rw [setVel_length]
    exact hk
  rw [getElem!_pos (setVel qs i v) k hk', getElem!_pos qs k hk]
  have h := setVel_getElem_ne qs i v k hne
  rw [List.getElem?_eq_getElem hk', List.getElem?_eq_getElem hk] at h
  exact Option.some.inj h

lemma applyRec_getElem_e2 (qs : List Particle) (r : CollisionRec)
    (h2 : r.e2 < qs.length) (hne : r.e1 ≠ r.e2) :
    (applyRec qs r)[r.e2]? = some { qs[r.e2]! with velocity :=
      (elastic_collision r.m1 r.m2 r.vel1 r.vel2 r.pos1 r.pos2).2 } := by
  unfold applyRec
  have h2' : r.e2 < (setVel qs r.e1
      (elastic_collision r.m1 r.m2 r.vel1 r.vel2 r.pos1 r.pos2).1).length := by
    rw [setVel_length]
    exact h2
  rw [setVel_getElem_self _ r.e2 _ h2',
    setVel_getElem_bang_ne qs r.e1 _ r.e2 hne h2]

lemma getLast?_cons_ne_nil {α : Type} (a : α) (l : List α) (h : l ≠ []) :
    (a :: l).getLast? = l.getLast? := by
  cases l with
  | nil => exact absurd rfl h
  | cons b t => exact List.getLast?_cons_cons

lemma foldl_applyRec_velocity (recs : List CollisionRec) (qs : List Particle)
    (k : Nat) (hk : k < qs.length)
    (hinv : ∀ r ∈ recs, r.e1 < qs.length ∧ r.e2 < qs.length ∧ r.e1 ≠ r.e2) :
    ((recs.foldl applyRec qs)[k]?).map Particle.velocity =
      (match (recs.filter (touches k)).getLast? with
      | none => (qs[k]?).map Particle.velocity
      | some r => some (outVel k r)) := by
  induction recs generalizing qs with
  | nil => rfl
  | cons c t ih =>
    have hinvc := hinv c (List.mem_cons_self c t)
    have hinvt : ∀ r ∈ t, r.e1 < (applyRec qs c).length ∧
        r.e2 < (applyRec qs c).length ∧ r.e1 ≠ r.e2 := by
      rw [applyRec_length]
      exact fun r hr => hinv r (List.mem_cons_of_mem c hr)
    have hk' : k < (applyRec qs c).length := by
      rw [applyRec_length]
      exact hk
    have ihc := ih (applyRec qs c) hk' hinvt
    rw [List.foldl_cons, ihc, List.filter_cons]
    by_cases hfilter : t.filter (touches k) = []
    · by_cases htc : touches k c = true
      · rw [if_pos htc, hfilter, List.getLast?_singleton]
        show Option.map Particle.velocity (applyRec qs c)[k]? = some (outVel k c)
        have htc2 : c.e1 = k ∨ c.e2 = k := by simpa [touches] using htc
        rcases htc2 with he1 | he2
        · subst he1
          rw [applyRec_getElem_e1 qs c hinvc.1 hinvc.2.2]
          unfold outVel
          rw [if_pos rfl]
          rfl
        · subst he2
          rw [applyRec_getElem_e2 qs c hinvc.2.1 hinvc.2.2]
          unfold outVel
          rw [if_neg hinvc.2.2]
          rfl
      · rw [if_neg htc, hfilter]
        show Option.map Particle.velocity (applyRec qs c)[k]? =
          Option.map Particle.velocity qs[k]?
        have hne : c.e1 ≠ k ∧ c.e2 ≠ k := by
          constructor <;> intro h <;> apply htc <;>
            simp [touches, h]
        rw [applyRec_getElem_untouched qs c k hne.1 hne.2]
    · rcases hlast : (t.filter (touches k)).getLast? with _ | r
      · exact absurd (List.getLast?_eq_none_iff.1 hlast) hfilter
      · by_cases htc : touches k c = true
        · rw [if_pos htc, getLast?_cons_ne_nil c _ hfilter, hlast]
        · rw [if_neg htc, hlast]

lemma mkRec_e1 (ps : List Particle) (q : Nat × Nat) : (mkRec ps q).e1 = q.1 := rfl

lemma mkRec_e2 (ps : List Particle) (q : Nat × Nat) : (mkRec ps q).e2 = q.2 := rfl

lemma mem_collisionRecs_inv (ps : List Particle) (r : CollisionRec)
    (h : r ∈ collisionRecs ps) :
    r.e1 < ps.length ∧ r.e2 < ps.length ∧ r.e1 ≠ r.e2 := by
  unfold collisionRecs at h
  rcases List.mem_map.1 h with ⟨q, hq, rfl⟩
  have hlt := mem_pairIndices _ _ ((List.mem_filter.1 hq).1)
  simp only [mkRec_e1, mkRec_e2]
  omega

/-- C10: detect_collisions resolves every detected pair from the snapshot
taken before any write (the records carry the snapshotted positions,
velocities and masses), and each resolution overwrites the two velocities;
consequently the final velocity of particle k equals the elastic_collision
output of the last record involving k in detection order (its first output
when k is the record's first entity, its second otherwise), computed entirely
from snapshot data — impulses from several pairs are never accumulated — and
a particle in no record keeps its velocity. -/
theorem detect_collisions_last_write_wins (ps : List Particle) (k : Nat)
    (hk : k < ps.length) :
    ((detect_collisions ps)[k]?).map Particle.velocity =
      (match ((collisionRecs ps).filter (touches k)).getLast? with
      | none => some ((ps[k]!).velocity)
      | some r => some (outVel k r)) := by
  unfold detect_collisions
  rw [foldl_applyRec_velocity _ _ _ hk (fun r hr => mem_collisionRecs_inv ps r hr)]
  rcases hlast : ((collisionRecs ps).filter (touches k)).getLast? with _ | r
  · simp only
    rw [List.getElem?_eq_getElem hk, getElem!_pos ps k hk]
    rfl
  · rfl

/-- C10 witness: a two-particle population with no colliding pair, at index 0. -/
theorem detect_collisions_last_write_wins_witness :
    (0 : Nat) < ([⟨⟨0, 0, 0⟩, ⟨1, 0, 0⟩, 1⟩, ⟨⟨9, 0, 0⟩, 0, 1⟩] : List Particle).length ∧
      ((detect_collisions
          [⟨⟨0, 0, 0⟩, ⟨1, 0, 0⟩, 1⟩, ⟨⟨9, 0, 0⟩, 0, 1⟩])[(0 : Nat)]?).map
          Particle.velocity =
        (match ((collisionRecs
            [⟨⟨0, 0, 0⟩, ⟨1, 0, 0⟩, 1⟩, ⟨⟨9, 0, 0⟩, 0, 1⟩]).filter
            (touches 0)).getLast? with
        | none => some ((([⟨⟨0, 0, 0⟩, ⟨1, 0, 0⟩, 1⟩, ⟨⟨9, 0, 0⟩, 0, 1⟩] :
            List Particle)[(0 : Nat)]!).velocity)
        | some r => some (outVel 0 r)) :=
  ⟨by simp, detect_collisions_last_write_wins _ 0 (by simp)⟩
